import Mathlib

/-!
Verification of the task tracker in `todo_manager.py`.

The development shallowly embeds the task store, the report renderer,
the Discord slot registry and the sync/overflow logic as pure Lean
functions.  Mutation of the in-memory `data` dict is modelled by
explicit state passing; `sys.exit(1)` paths are modelled by returning
the unchanged state together with an error value; network and file
side effects are modelled as explicit event traces parameterised by a
response oracle.
-/

namespace TodoManager

/-- A task record, mirroring the dicts created by `add_task`:
`{'id': int, 'name': str, 'code_pointer': str, 'status': str}`.
The status field is the literal string stored in the JSON document:
`""` for pending, `"✅DONE✅"` for done. -/
structure Task where
  id : Int
  name : String
  code_pointer : String
  status : String
deriving Repr, DecidableEq

/-- The persisted document: `{"tasks": [...], "last_id": int}`. -/
structure Store where
  tasks : List Task
  last_id : Int
deriving Repr, DecidableEq

/-- The status marker written by `tick_task`. -/
def DONE_MARKER : String := "✅DONE✅"

/-- The empty document created by `initialize_json`:
`{"tasks": [], "last_id": 0}`. -/
def initStore : Store := { tasks := [], last_id := 0 }

/-- Errors surfaced via `print` + `sys.exit(1)` by the task-store operations. -/
inductive Err where
  | notFound (id : Int)
deriving Repr, DecidableEq

/-- `add_task(data, name, code_pointer)`: increments `last_id`, appends a new
pending task carrying the fresh id, and returns the assigned id. -/
def add_task (s : Store) (name : String) (code_pointer : String) : Store × Int :=
  let newId := s.last_id + 1
  ({ tasks := s.tasks ++ [{ id := newId, name := name, code_pointer := code_pointer, status := "" }],
     last_id := newId }, newId)

/-- The scan loop of `tick_task`: first task whose id matches is set to
`DONE_MARKER` (no-op if already done); `none` when no task matches. -/
def tickGo : List Task → Int → Option (List Task)
  | [], _ => none
  | t :: ts, tid =>
    if t.id = tid then
      if t.status = DONE_MARKER then some (t :: ts)
      else some ({ t with status := DONE_MARKER } :: ts)
    else (tickGo ts tid).map (fun ts2 => t :: ts2)

/-- `tick_task(data, task_id)`.  On `NotFound` the Python code prints an error
and exits without having mutated `data`, so the model returns the unchanged
store together with the error. -/
def tick_task (s : Store) (tid : Int) : Store × Option Err :=
  match tickGo s.tasks tid with
  | some ts => ({ s with tasks := ts }, none)
  | none => (s, some (Err.notFound tid))

/-- The scan loop of `untick_task`: first task whose id matches is set back to
`""` (no-op if already pending). -/
def untickGo : List Task → Int → Option (List Task)
  | [], _ => none
  | t :: ts, tid =>
    if t.id = tid then
      if t.status = "" then some (t :: ts)
      else some ({ t with status := "" } :: ts)
    else (untickGo ts tid).map (fun ts2 => t :: ts2)

/-- `untick_task(data, task_id)`. -/
def untick_task (s : Store) (tid : Int) : Store × Option Err :=
  match untickGo s.tasks tid with
  | some ts => ({ s with tasks := ts }, none)
  | none => (s, some (Err.notFound tid))

/-- The scan loop of `delete_task`: removes the first task whose id matches. -/
def deleteGo : List Task → Int → Option (List Task)
  | [], _ => none
  | t :: ts, tid =>
    if t.id = tid then some ts
    else (deleteGo ts tid).map (fun ts2 => t :: ts2)

/-- `delete_task(data, task_id)`. -/
def delete_task (s : Store) (tid : Int) : Store × Option Err :=
  match deleteGo s.tasks tid with
  | some ts => ({ s with tasks := ts }, none)
  | none => (s, some (Err.notFound tid))

/-- The scan loop of `edit_task`: overwrites name and code_pointer of the
first task whose id matches, unconditionally. -/
def editGo : List Task → Int → String → String → Option (List Task)
  | [], _, _, _ => none
  | t :: ts, tid, nm, cp =>
    if t.id = tid then some ({ t with name := nm, code_pointer := cp } :: ts)
    else (editGo ts tid nm cp).map (fun ts2 => t :: ts2)

/-- `edit_task(data, task_id, name, code_pointer)`. -/
def edit_task (s : Store) (tid : Int) (nm cp : String) : Store × Option Err :=
  match editGo s.tasks tid nm cp with
  | some ts => ({ s with tasks := ts }, none)
  | none => (s, some (Err.notFound tid))

/-- One mutating CLI command. -/
inductive Op where
  | add (name code_pointer : String)
  | tick (id : Int)
  | untick (id : Int)
  | delete (id : Int)
  | edit (id : Int) (name code_pointer : String)
deriving Repr, DecidableEq

/-- Dispatch of one mutating command against the store (the mutating branch
of `main`).  A failing command exits leaving the store as it was. -/
def applyOp (s : Store) : Op → Store × Option Err
  | .add nm cp => ((add_task s nm cp).1, none)
  | .tick i => tick_task s i
  | .untick i => untick_task s i
  | .delete i => delete_task s i
  | .edit i nm cp => edit_task s i nm cp

/-- Number of `add` commands in a command sequence. -/
def numAdds : List Op → Nat
  | [] => 0
  | .add _ _ :: ops => numAdds ops + 1
  | _ :: ops => numAdds ops

/-- The ids handed out by the `add` commands of a command sequence, in
execution order, starting from store `s`. -/
def assignedIds : Store → List Op → List Int
  | _, [] => []
  | s, .add nm cp :: ops =>
    let r := add_task s nm cp
    r.2 :: assignedIds r.1 ops
  | s, op :: ops => assignedIds (applyOp s op).1 ops

/-- `[base + 1, base + 2, ..., base + n]`: the ids a run of `n` adds hands
out above the watermark `base`. -/
def idsFrom : Int → Nat → List Int
  | _, 0 => []
  | b, n + 1 => (b + 1) :: idsFrom (b + 1) n

/-! ## Report renderer (`write_txt`) -/

/-- Python slicing `text[:n]`: the first `n` characters. -/
def strTake (s : String) (n : Nat) : String := ⟨s.data.take n⟩

/-- The inner `truncate` helper of `write_txt`:
`(text[:max_length - 3] + '...') if len(text) > max_length else text`. -/
def truncate (text : String) (max_length : Nat) : String :=
  if text.length > max_length then strTake text (max_length - 3) ++ "..." else text

/-- Python `f"{s:<w}"` left justification: pad with spaces to width `w`. -/
def padRight (s : String) (w : Nat) : String :=
  s ++ String.mk (List.replicate (w - s.length) ' ')

def HEADER_LINE : String := "ID  | Name                                          | Code Pointer          | Status\n"

def SEP_LINE : String := "-----------------------------------------------------------------------------------------\n"

/-- One data row of `write_txt`:
`f"{task_id:<3} | {name:<45} | {code_pointer:<21} | {status}\n"` with
`name = truncate(name, 45)` and `code_pointer = truncate(code_pointer, 21)`. -/
def taskRow (t : Task) : String :=
  padRight (toString t.id) 3 ++ " | " ++ padRight (truncate t.name 45) 45 ++ " | " ++
    padRight (truncate t.code_pointer 21) 21 ++ " | " ++ t.status ++ "\n"

/-- The `tasks_content` (pending section) built by `write_txt`. -/
def tasksSection (data : Store) : String :=
  (data.tasks.foldl
    (fun acc t => if t.status = "" then acc ++ taskRow t else acc)
    ("TODO LIST - PENDING:\n\n" ++ HEADER_LINE ++ SEP_LINE)) ++ "\n"

/-- The `done_content` (done section) built by `write_txt`. -/
def doneSection (data : Store) : String :=
  (data.tasks.foldl
    (fun acc t => if t.status = DONE_MARKER then acc ++ taskRow t else acc)
    ("TODO LIST - DONE:\n\n" ++ HEADER_LINE ++ SEP_LINE)) ++ "\n"

/-- The pair returned by `write_txt`: `{'tasks': tasks_content, 'done': done_content}`.
(The write to `todo.txt` is the concatenation of the two fields.) -/
structure RenderedSections where
  tasks : String
  done : String
deriving Repr, DecidableEq

/-- `write_txt(data)`. -/
def write_txt (data : Store) : RenderedSections :=
  { tasks := tasksSection data, done := doneSection data }

/-! ## Discord slot registry and sync (`sync_discord`, `create_done_message`) -/

/-- The three module-level configuration values read from the environment:
`DISCORD_WEBHOOK_URL`, `DISCORD_MESSAGE_ID` (pending/tasks slot) and
`DISCORD_DONE_MESSAGE_ID` (done slot).  `none` models an unset variable. -/
structure DiscordConfig where
  webhook_url : Option String
  message_id : Option String
  done_message_id : Option String
deriving Repr, DecidableEq

/-- Python truthiness test `not x` for an optional string:
true when the variable is unset or the empty string. -/
def pyFalsy (o : Option String) : Bool := (o.getD "") = ""

/-- Observable side effects of one invocation. -/
inductive Event where
  | writeJson (data : Store)
  | writeTxt (content : String)
  | post (url : String) (content : String)
  | patch (url : String) (content : String)
deriving Repr, DecidableEq

/-- Errors surfaced by the sync path. -/
inductive SyncErr where
  | notConfigured
  | invalidWebhookFormat
  | syncFailed (statusCode : Nat)
deriving Repr, DecidableEq

/-- `sync_discord(tasks_content, done_content)`.  `patchStatus` is the oracle
giving the HTTP status the remote returns for a PATCH of a given URL.
Returns the trace of network calls made and the error, if any. -/
def sync_discord (cfg : DiscordConfig) (tasks_content done_content : String)
    (patchStatus : String → Nat) : List Event × Option SyncErr :=
  if pyFalsy cfg.webhook_url || pyFalsy cfg.message_id || pyFalsy cfg.done_message_id then
    ([], some SyncErr.notConfigured)
  else
    let url := cfg.webhook_url.getD ""
    let parts := url.splitOn "/"
    if parts.length < 2 then ([], some SyncErr.invalidWebhookFormat)
    else
      let webhook_id := parts.getD (parts.length - 2) ""
      let webhook_token := parts.getD (parts.length - 1) ""
      let tasks_edit_url := "https://discord.com/api/webhooks/" ++ webhook_id ++ "/" ++
        webhook_token ++ "/messages/" ++ cfg.message_id.getD ""
      let ev1 := Event.patch tasks_edit_url ("```yaml\n" ++ tasks_content ++ "```")
      let st1 := patchStatus tasks_edit_url
      if st1 ≠ 200 then ([ev1], some (SyncErr.syncFailed st1))
      else
        let done_edit_url := "https://discord.com/api/webhooks/" ++ webhook_id ++ "/" ++
          webhook_token ++ "/messages/" ++ cfg.done_message_id.getD ""
        let ev2 := Event.patch done_edit_url ("```yaml\n" ++ done_content ++ "```")
        let st2 := patchStatus done_edit_url
        if st2 ≠ 200 then ([ev1, ev2], some (SyncErr.syncFailed st2))
        else ([ev1, ev2], none)

/-- One data row of the done content rebuilt inline by `create_done_message`:
same format string, but with plain slicing `name[:45]` / `code_pointer[:21]`
instead of `truncate`. -/
def cdmRow (t : Task) : String :=
  padRight (toString t.id) 3 ++ " | " ++ padRight (strTake t.name 45) 45 ++ " | " ++
    padRight (strTake t.code_pointer 21) 21 ++ " | " ++ t.status ++ "\n"

/-- The `done_content` built by `create_done_message` (lines 265-275). -/
def cdmDoneContent (data : Store) : String :=
  (data.tasks.foldl
    (fun acc t => if t.status = DONE_MARKER then acc ++ cdmRow t else acc)
    ("TODO LIST - DONE:\n\n" ++ HEADER_LINE ++ SEP_LINE)) ++ "\n"

/-- The registry update performed at the end of `create_done_message`
(lines 293-297): the freshly supplied message id becomes
`DISCORD_MESSAGE_ID` and the old `DISCORD_MESSAGE_ID` becomes
`DISCORD_DONE_MESSAGE_ID`. -/
def cdmSwapIds (cfg : DiscordConfig) (new_done_message_id : String) : DiscordConfig :=
  let old_tasks_message_id := cfg.message_id
  { cfg with message_id := some new_done_message_id,
             done_message_id := old_tasks_message_id }

/-- `create_done_message(data)`: renders done content inline, POSTs it, and on
a 204 acknowledgment prompts for the new message id and swaps the registry.
`postStatus` is the HTTP status of the POST; on failure the process exits
with the registry unchanged (`none`). -/
def create_done_message (cfg : DiscordConfig) (data : Store) (postStatus : Nat)
    (new_done_message_id : String) : List Event × Option DiscordConfig :=
  let ev := Event.post (cfg.webhook_url.getD "") ("```yaml\n" ++ cdmDoneContent data ++ "```")
  if postStatus = 204 then ([ev], some (cdmSwapIds cfg new_done_message_id))
  else ([ev], none)

/-- Errors of the mutating path of `main`. -/
inductive MainErr where
  | opErr (e : Err)
  | syncErr (e : SyncErr)
deriving Repr, DecidableEq

/-- The mutating branch of `main` (lines 470-494): run the command; on
success persist the store with `write_json`, render and write the text file
with `write_txt`, then `sync_discord` the rendered sections.  A failing
command exits before anything is persisted. -/
def mainMutating (cfg : DiscordConfig) (s : Store) (op : Op)
    (patchStatus : String → Nat) : List Event × Option MainErr :=
  match applyOp s op with
  | (_, some e) => ([], some (MainErr.opErr e))
  | (s2, none) =>
    let contents := write_txt s2
    let r := sync_discord cfg contents.tasks contents.done patchStatus
    (Event.writeJson s2 :: Event.writeTxt (contents.tasks ++ contents.done) :: r.1,
      r.2.map MainErr.syncErr)

/-- `nargs='?', default='...'` handling of the optional `code_pointer`
positional argument in `parse_args` (both for `add` and `edit`):
an omitted argument parses to the literal string `"..."`. -/
def parsedCodePointer (cp : Option String) : String := cp.getD "..."

/-- Set the status of the first task with the given id to pending (`""`),
leaving everything else untouched.  Characterises the net effect of
`tick_task` followed by `untick_task`. -/
def setFirstPending : List Task → Int → List Task
  | [], _ => []
  | t :: ts, tid =>
    if t.id = tid then { t with status := "" } :: ts
    else t :: setFirstPending ts tid

/-- A store with one done task whose name is 46 characters long: long enough
that `write_txt`'s `truncate` (ellipsis) and `create_done_message`'s plain
slicing disagree. -/
def c4CexStore : Store :=
  { tasks := [{ id := 1, name := String.mk (List.replicate 46 'a'),
                code_pointer := "x", status := DONE_MARKER }],
    last_id := 1 }

/-- A fully configured registry with pending slot `"111"` and done slot
`"222"` for the overflow-handler scenario. -/
def c1Cfg : DiscordConfig :=
  { webhook_url := some "https://discord.com/api/webhooks/W/T",
    message_id := some "111",
    done_message_id := some "222" }

/-! ## Helper lemmas -/

theorem tick_last_id (s : Store) (i : Int) : (tick_task s i).1.last_id = s.last_id := by
  unfold tick_task
  cases tickGo s.tasks i <;> rfl

theorem untick_last_id (s : Store) (i : Int) : (untick_task s i).1.last_id = s.last_id := by
  unfold untick_task
  cases untickGo s.tasks i <;> rfl

theorem delete_last_id (s : Store) (i : Int) : (delete_task s i).1.last_id = s.last_id := by
  unfold delete_task
  cases deleteGo s.tasks i <;> rfl

theorem edit_last_id (s : Store) (i : Int) (nm cp : String) :
    (edit_task s i nm cp).1.last_id = s.last_id := by
  unfold edit_task
  cases editGo s.tasks i nm cp <;> rfl

theorem assignedIds_eq (ops : List Op) :
    ∀ s : Store, assignedIds s ops = idsFrom s.last_id (numAdds ops) := by
  induction ops with
  | nil => intro s; rfl
  | cons op ops ih =>
    intro s
    cases op with
    | add nm cp =>
      simp only [assignedIds, numAdds, idsFrom]
      exact congrArg (List.cons (s.last_id + 1)) (ih (add_task s nm cp).1)
    | tick i =>
      simp only [assignedIds, numAdds, applyOp]
      rw [ih, tick_last_id]
    | untick i =>
      simp only [assignedIds, numAdds, applyOp]
      rw [ih, untick_last_id]
    | delete i =>
      simp only [assignedIds, numAdds, applyOp]
      rw [ih, delete_last_id]
    | edit i nm cp =>
      simp only [assignedIds, numAdds, applyOp]
      rw [ih, edit_last_id]

theorem idsFrom_mem (n : Nat) : ∀ (b x : Int), x ∈ idsFrom b n → b < x := by
  induction n with
  | zero => intro b x hx; simp [idsFrom] at hx
  | succ n ih =>
    intro b x hx
    rcases List.mem_cons.mp hx with h | h
    · omega
    · have := ih (b + 1) x h
      omega

theorem idsFrom_pairwise (n : Nat) : ∀ b : Int, List.Pairwise (· < ·) (idsFrom b n) := by
  induction n with
  | zero => intro b; exact List.Pairwise.nil
  | succ n ih =>
    intro b
    refine List.pairwise_cons.mpr ⟨?_, ih (b + 1)⟩
    intro x hx
    exact idsFrom_mem n (b + 1) x hx

/-! ## Claim theorems -/

/-- Claim C3: starting from the empty store, whatever mix of add, tick,
untick, delete and edit commands is run, the ids handed out by the add
commands are exactly `[1, 2, ..., n]`: strictly increasing, starting at 1,
never repeated — deletes do not free ids for reuse. -/
theorem c3_ids_monotone_no_reuse (ops : List Op) :
    assignedIds initStore ops = idsFrom 0 (numAdds ops) ∧
    List.Pairwise (· < ·) (assignedIds initStore ops) ∧
    (assignedIds initStore ops).Nodup ∧
    ∀ x ∈ assignedIds initStore ops, 1 ≤ x := by
  have he : assignedIds initStore ops = idsFrom 0 (numAdds ops) := assignedIds_eq ops initStore
  have hp : List.Pairwise (· < ·) (assignedIds initStore ops) := by
    rw [he]; exact idsFrom_pairwise (numAdds ops) 0
  refine ⟨he, hp, hp.imp ne_of_lt, ?_⟩
  intro x hx
  rw [he] at hx
  have := idsFrom_mem (numAdds ops) 0 x hx
  omega

/-- Claim C6: `sync_discord` called while the webhook URL or either message
id is absent fails with the not-configured error and performs zero network
calls (its event trace is empty). -/
theorem c6_unconfigured_sync (cfg : DiscordConfig) (tc dc : String) (o : String → Nat)
    (h : cfg.webhook_url = none ∨ cfg.message_id = none ∨ cfg.done_message_id = none) :
    sync_discord cfg tc dc o = ([], some SyncErr.notConfigured) := by
  unfold sync_discord
  rcases h with h | h | h <;> simp [pyFalsy, h]

theorem c6_unconfigured_sync_witness :
    sync_discord { webhook_url := none, message_id := some "1", done_message_id := some "2" }
      "t" "d" (fun _ => 200) = ([], some SyncErr.notConfigured) :=
  c6_unconfigured_sync _ "t" "d" (fun _ => 200) (Or.inl rfl)

/-- Claim C2: with pending slot `A` and done slot `B`, a successful
`create_done_message` with freshly supplied id `C` assigns `C` to the
pending slot, moves `A` to the done slot, and retires `B`: it is assigned
to neither role afterwards (given `B` differs from `A` and from the fresh
`C`, as the registry invariant and freshness guarantee). -/
theorem c2_overflow_reassignment (cfg : DiscordConfig) (data : Store) (A B C : String)
    (hA : cfg.message_id = some A) (hB : cfg.done_message_id = some B)
    (hBA : B ≠ A) (hBC : B ≠ C) :
    ∃ cfg2, (create_done_message cfg data 204 C).2 = some cfg2 ∧
      cfg2.message_id = some C ∧ cfg2.done_message_id = some A ∧
      cfg2.message_id ≠ some B ∧ cfg2.done_message_id ≠ some B := by
  refine ⟨cdmSwapIds cfg C, by simp [create_done_message], ?_, ?_, ?_, ?_⟩ <;>
    simp [cdmSwapIds, hA, hB]
  · exact fun hc => hBC hc.symm
  · exact fun hc => hBA hc.symm

theorem c2_overflow_reassignment_witness :
    ∃ cfg2, (create_done_message c1Cfg initStore 204 "333").2 = some cfg2 ∧
      cfg2.message_id = some "333" ∧ cfg2.done_message_id = some "111" ∧
      cfg2.message_id ≠ some "222" ∧ cfg2.done_message_id ≠ some "222" :=
  c2_overflow_reassignment c1Cfg initStore "111" "222" "333" rfl rfl
    (by decide) (by decide)

/-- Claim C1, counterexample: starting from pending slot `"111"` and done
slot `"222"`, a successful overflow with fresh id `"333"` does not leave
the registry with pending `= "222"` and done `= "333"` as the claim states
(the code instead assigns pending `= "333"` and done `= "111"`). -/
theorem c1_claim_false_at_concrete_registry :
    ¬ ((create_done_message c1Cfg initStore 204 "333").2.map DiscordConfig.message_id
          = some (some "222") ∧
       (create_done_message c1Cfg initStore 204 "333").2.map DiscordConfig.done_message_id
          = some (some "333")) := by
  intro h
  have h1 := h.1
  simp [create_done_message, cdmSwapIds, c1Cfg] at h1

/-- Claim C1, amended: with pending slot `A` and done slot `B`, a successful
overflow with freshly supplied id `C` leaves the registry with the PENDING
role assigned `C` and the DONE role assigned `A` (not `B`/`C` as the claim
stated; the old done id `B` is dropped). -/
theorem c1_overflow_swap_amended (cfg : DiscordConfig) (data : Store) (A B C : String)
    (hA : cfg.message_id = some A) (hB : cfg.done_message_id = some B) :
    ∃ cfg2, (create_done_message cfg data 204 C).2 = some cfg2 ∧
      cfg2.message_id = some C ∧ cfg2.done_message_id = some A := by
  refine ⟨cdmSwapIds cfg C, by simp [create_done_message], rfl, ?_⟩
  simp [cdmSwapIds, hA]

theorem c1_overflow_swap_amended_witness :
    ∃ cfg2, (create_done_message c1Cfg c4CexStore 204 "999").2 = some cfg2 ∧
      cfg2.message_id = some "999" ∧ cfg2.done_message_id = some "111" :=
  c1_overflow_swap_amended c1Cfg c4CexStore "111" "222" "999" rfl rfl

theorem tickGo_none (ts : List Task) (tid : Int) (h : ∀ t ∈ ts, t.id ≠ tid) :
    tickGo ts tid = none := by
  induction ts with
  | nil => rfl
  | cons t ts ih =>
    simp only [tickGo]
    rw [if_neg (h t (by simp)), ih (fun u hu => h u (by simp [hu]))]
    rfl

theorem untickGo_none (ts : List Task) (tid : Int) (h : ∀ t ∈ ts, t.id ≠ tid) :
    untickGo ts tid = none := by
  induction ts with
  | nil => rfl
  | cons t ts ih =>
    simp only [untickGo]
    rw [if_neg (h t (by simp)), ih (fun u hu => h u (by simp [hu]))]
    rfl

theorem deleteGo_none (ts : List Task) (tid : Int) (h : ∀ t ∈ ts, t.id ≠ tid) :
    deleteGo ts tid = none := by
  induction ts with
  | nil => rfl
  | cons t ts ih =>
    simp only [deleteGo]
    rw [if_neg (h t (by simp)), ih (fun u hu => h u (by simp [hu]))]
    rfl

theorem editGo_none (ts : List Task) (tid : Int) (nm cp : String)
    (h : ∀ t ∈ ts, t.id ≠ tid) : editGo ts tid nm cp = none := by
  induction ts with
  | nil => rfl
  | cons t ts ih =>
    simp only [editGo]
    rw [if_neg (h t (by simp)), ih (fun u hu => h u (by simp [hu]))]
    rfl

/-- When no task carries the id, every one of the four id-addressed
operations exits with `NotFound` leaving the store untouched. -/
theorem ops_notFound_of_absent (s : Store) (tid : Int)
    (h : ∀ t ∈ s.tasks, t.id ≠ tid) :
    tick_task s tid = (s, some (Err.notFound tid)) ∧
    untick_task s tid = (s, some (Err.notFound tid)) ∧
    delete_task s tid = (s, some (Err.notFound tid)) ∧
    ∀ nm cp, edit_task s tid nm cp = (s, some (Err.notFound tid)) := by
  refine ⟨?_, ?_, ?_, fun nm cp => ?_⟩
  · unfold tick_task; rw [tickGo_none s.tasks tid h]
  · unfold untick_task; rw [untickGo_none s.tasks tid h]
  · unfold delete_task; rw [deleteGo_none s.tasks tid h]
  · unfold edit_task; rw [editGo_none s.tasks tid nm cp h]

/-- After a successful delete in a store with pairwise distinct ids, no
remaining task carries the deleted id. -/
theorem deleteGo_not_mem (ts : List Task) (tid : Int)
    (hnd : (ts.map Task.id).Nodup) :
    ∀ ts2, deleteGo ts tid = some ts2 → ∀ t ∈ ts2, t.id ≠ tid := by
  induction ts with
  | nil => intro ts2 h; simp [deleteGo] at h
  | cons t ts ih =>
    intro ts2 h
    by_cases ht : t.id = tid
    · rw [deleteGo, if_pos ht] at h
      cases h
      intro u hu he
      exact (List.nodup_cons.mp hnd).1 (ht ▸ he ▸ List.mem_map_of_mem Task.id hu)
    · rw [deleteGo, if_neg ht] at h
      obtain ⟨ts3, h3, rfl⟩ := Option.map_eq_some'.mp h
      intro u hu
      rcases List.mem_cons.mp hu with rfl | hu2
      · exact ht
      · exact ih (List.nodup_cons.mp hnd).2 ts3 h3 u hu2

/-- Claim C7: when no task in the store has the id, tick, untick, delete and
edit each fail with `NotFound` and leave the store (tasks and `last_id`)
unchanged; and in a store with distinct ids, once `delete` succeeds for an
id, every subsequent operation on that id yields `NotFound`. -/
theorem c7_not_found (s : Store) (tid : Int) :
    ((∀ t ∈ s.tasks, t.id ≠ tid) →
      tick_task s tid = (s, some (Err.notFound tid)) ∧
      untick_task s tid = (s, some (Err.notFound tid)) ∧
      delete_task s tid = (s, some (Err.notFound tid)) ∧
      ∀ nm cp, edit_task s tid nm cp = (s, some (Err.notFound tid))) ∧
    ((s.tasks.map Task.id).Nodup →
      ∀ s2, delete_task s tid = (s2, none) →
        tick_task s2 tid = (s2, some (Err.notFound tid)) ∧
        untick_task s2 tid = (s2, some (Err.notFound tid)) ∧
        delete_task s2 tid = (s2, some (Err.notFound tid)) ∧
        ∀ nm cp, edit_task s2 tid nm cp = (s2, some (Err.notFound tid))) := by
  refine ⟨fun h => ops_notFound_of_absent s tid h, fun hnd s2 hdel => ?_⟩
  have habs : ∀ t ∈ s2.tasks, t.id ≠ tid := by
    unfold delete_task at hdel
    cases hd : deleteGo s.tasks tid with
    | none =>
      rw [hd] at hdel
      exact absurd (congrArg Prod.snd hdel) (by simp)
    | some ts =>
      rw [hd] at hdel
      have hs2 : s2 = { s with tasks := ts } := (congrArg Prod.fst hdel).symm
      subst hs2
      exact deleteGo_not_mem s.tasks tid hnd ts hd
  exact ops_notFound_of_absent s2 tid habs

theorem c7_not_found_witness :
    (tick_task { tasks := [{ id := 1, name := "a", code_pointer := "b", status := "" }], last_id := 1 } 2
      = ({ tasks := [{ id := 1, name := "a", code_pointer := "b", status := "" }], last_id := 1 },
         some (Err.notFound 2))) ∧
    (delete_task { tasks := [{ id := 1, name := "a", code_pointer := "b", status := "" }], last_id := 1 } 1
      = ({ tasks := [], last_id := 1 }, none)) ∧
    (tick_task { tasks := [], last_id := 1 } 1
      = ({ tasks := [], last_id := 1 }, some (Err.notFound 1))) :=
  ⟨((c7_not_found { tasks := [{ id := 1, name := "a", code_pointer := "b", status := "" }], last_id := 1 } 2).1
      (by decide)).1,
   by decide,
   (((c7_not_found { tasks := [{ id := 1, name := "a", code_pointer := "b", status := "" }], last_id := 1 } 1).2
      (by decide) { tasks := [], last_id := 1 } (by decide)).1)⟩

/-- Composite effect of `tick_task` then `untick_task` at the level of the
scan loops: both succeed and the net result sets the first matching task's
status to pending. -/
theorem tick_untick_go (ts : List Task) (tid : Int) (h : ∃ t ∈ ts, t.id = tid) :
    ∃ ts1, tickGo ts tid = some ts1 ∧
      untickGo ts1 tid = some (setFirstPending ts tid) := by
  induction ts with
  | nil => simp at h
  | cons t ts ih =>
    by_cases ht : t.id = tid
    · by_cases hs : t.status = DONE_MARKER
      · refine ⟨t :: ts, ?_, ?_⟩
        · simp [tickGo, ht, hs]
        · have hne : t.status ≠ "" := by rw [hs]; decide
          simp [untickGo, ht, hne, setFirstPending]
      · refine ⟨{ t with status := DONE_MARKER } :: ts, ?_, ?_⟩
        · simp [tickGo, ht, hs]
        · have hne : DONE_MARKER ≠ "" := by decide
          simp [untickGo, ht, hne, setFirstPending]
    · have h2 : ∃ u ∈ ts, u.id = tid := by
        rcases h with ⟨u, hu, hid⟩
        rcases List.mem_cons.mp hu with rfl | hu2
        · exact absurd hid ht
        · exact ⟨u, hu2, hid⟩
      obtain ⟨ts1, h1, hu1⟩ := ih h2
      refine ⟨t :: ts1, ?_, ?_⟩
      · simp [tickGo, ht, h1]
      · simp [untickGo, ht, hu1, setFirstPending]

/-- `setFirstPending` is the pointwise update at the first matching index:
only that task's status changes. -/
theorem setFirstPending_spec (ts : List Task) (tid : Int)
    (h : ∃ t ∈ ts, t.id = tid) :
    ∃ i, ∃ hi : i < ts.length, (ts.get ⟨i, hi⟩).id = tid ∧
      setFirstPending ts tid = ts.set i { ts.get ⟨i, hi⟩ with status := "" } := by
  induction ts with
  | nil => simp at h
  | cons t ts ih =>
    by_cases ht : t.id = tid
    · exact ⟨0, by simp, ht, by simp [setFirstPending, ht]⟩
    · have h2 : ∃ u ∈ ts, u.id = tid := by
        rcases h with ⟨u, hu, hid⟩
        rcases List.mem_cons.mp hu with rfl | hu2
        · exact absurd hid ht
        · exact ⟨u, hu2, hid⟩
      obtain ⟨i, hi, hid, heq⟩ := ih h2
      refine ⟨i + 1, by simpa using Nat.succ_lt_succ hi, ?_, ?_⟩
      · simpa using hid
      · simp only [setFirstPending, if_neg ht, List.set_cons_succ]
        rw [heq]
        rfl

/-- Claim C8: in a store containing a task with the id, `tick` then `untick`
both succeed and restore that task's status to pending, leaving its other
fields, all other tasks, the order of the list and `last_id` exactly as
before the tick. -/
theorem c8_tick_untick_restores (s : Store) (tid : Int)
    (h : ∃ t ∈ s.tasks, t.id = tid) :
    (tick_task s tid).2 = none ∧
    (untick_task (tick_task s tid).1 tid).2 = none ∧
    (untick_task (tick_task s tid).1 tid).1.last_id = s.last_id ∧
    ∃ i, ∃ hi : i < s.tasks.length, (s.tasks.get ⟨i, hi⟩).id = tid ∧
      (untick_task (tick_task s tid).1 tid).1.tasks =
        s.tasks.set i { s.tasks.get ⟨i, hi⟩ with status := "" } := by
  obtain ⟨ts1, h1, h2⟩ := tick_untick_go s.tasks tid h
  have ht : tick_task s tid = ({ s with tasks := ts1 }, none) := by
    unfold tick_task; rw [h1]
  have hu : untick_task { s with tasks := ts1 } tid =
      ({ s with tasks := setFirstPending s.tasks tid }, none) := by
    unfold untick_task
    show (match untickGo ts1 tid with
      | some ts => ({ s with tasks := ts }, none)
      | none => ({ s with tasks := ts1 }, some (Err.notFound tid))) = _
    rw [h2]
  rw [ht]
  refine ⟨rfl, ?_, ?_, ?_⟩
  · rw [hu]
  · rw [hu]
  · obtain ⟨i, hi, hid, heq⟩ := setFirstPending_spec s.tasks tid h
    exact ⟨i, hi, hid, by rw [hu]; exact heq⟩

theorem c8_tick_untick_restores_witness :
    (tick_task { tasks := [{ id := 1, name := "a", code_pointer := "b", status := "" }], last_id := 1 } 1).2 = none ∧
    (untick_task (tick_task { tasks := [{ id := 1, name := "a", code_pointer := "b", status := "" }], last_id := 1 } 1).1 1).2 = none ∧
    (untick_task (tick_task { tasks := [{ id := 1, name := "a", code_pointer := "b", status := "" }], last_id := 1 } 1).1 1).1.last_id = 1 ∧
    ∃ i, ∃ hi : i < ([{ id := 1, name := "a", code_pointer := "b", status := "" }] : List Task).length,
      (([{ id := 1, name := "a", code_pointer := "b", status := "" }] : List Task).get ⟨i, hi⟩).id = 1 ∧
      (untick_task (tick_task { tasks := [{ id := 1, name := "a", code_pointer := "b", status := "" }], last_id := 1 } 1).1 1).1.tasks =
        ([{ id := 1, name := "a", code_pointer := "b", status := "" }] : List Task).set i
          { ([{ id := 1, name := "a", code_pointer := "b", status := "" }] : List Task).get ⟨i, hi⟩ with status := "" } :=
  c8_tick_untick_restores
    { tasks := [{ id := 1, name := "a", code_pointer := "b", status := "" }], last_id := 1 } 1
    ⟨{ id := 1, name := "a", code_pointer := "b", status := "" }, by simp, rfl⟩

/-- Appending rows to an accumulator only ever extends it on the right. -/
theorem foldl_rows_extends (f : Task → String) (p : Task → Prop) [DecidablePred p]
    (l : List Task) :
    ∀ acc : String, ∃ r,
      l.foldl (fun a t => if p t then a ++ f t else a) acc = acc ++ r := by
  induction l with
  | nil => intro acc; exact ⟨"", (String.append_empty acc).symm⟩
  | cons t ts ih =>
    intro acc
    by_cases hp : p t
    · obtain ⟨r, hr⟩ := ih (acc ++ f t)
      exact ⟨f t ++ r, by simp only [List.foldl_cons, if_pos hp, hr, String.append_assoc]⟩
    · obtain ⟨r, hr⟩ := ih acc
      exact ⟨r, by simp only [List.foldl_cons, if_neg hp, hr]⟩

/-- Claim C9: rendering is a pure function of the store — equal stores give
byte-identical sections — and each section starts with its title line, the
column header line and the separator line whatever the store holds, in
particular when it contributes zero data rows. -/
theorem c9_render_deterministic_headers (d1 d2 : Store) (h : d1 = d2) :
    write_txt d1 = write_txt d2 ∧
    (∃ r, (write_txt d1).tasks = "TODO LIST - PENDING:\n\n" ++ HEADER_LINE ++ SEP_LINE ++ r) ∧
    (∃ r, (write_txt d1).done = "TODO LIST - DONE:\n\n" ++ HEADER_LINE ++ SEP_LINE ++ r) := by
  refine ⟨by rw [h], ?_, ?_⟩
  · obtain ⟨r, hr⟩ := foldl_rows_extends taskRow (fun t => t.status = "") d1.tasks
      ("TODO LIST - PENDING:\n\n" ++ HEADER_LINE ++ SEP_LINE)
    exact ⟨r ++ "\n", by
      show tasksSection d1 = _
      unfold tasksSection
      rw [hr, String.append_assoc]⟩
  · obtain ⟨r, hr⟩ := foldl_rows_extends taskRow (fun t => t.status = DONE_MARKER) d1.tasks
      ("TODO LIST - DONE:\n\n" ++ HEADER_LINE ++ SEP_LINE)
    exact ⟨r ++ "\n", by
      show doneSection d1 = _
      unfold doneSection
      rw [hr, String.append_assoc]⟩

theorem c9_render_deterministic_headers_witness :
    write_txt initStore = write_txt initStore ∧
    (∃ r, (write_txt initStore).tasks = "TODO LIST - PENDING:\n\n" ++ HEADER_LINE ++ SEP_LINE ++ r) ∧
    (∃ r, (write_txt initStore).done = "TODO LIST - DONE:\n\n" ++ HEADER_LINE ++ SEP_LINE ++ r) :=
  c9_render_deterministic_headers initStore initStore rfl

theorem strTake_of_le (s : String) (n : Nat) (h : s.length ≤ n) : strTake s n = s := by
  unfold strTake
  ext1
  exact List.take_of_length_le h

theorem truncate_of_le (s : String) (n : Nat) (h : s.length ≤ n) : truncate s n = s := by
  unfold truncate
  rw [if_neg (by omega)]

/-- Within the display widths, the `create_done_message` row and the
`write_txt` row coincide. -/
theorem cdmRow_eq_taskRow (t : Task) (hn : t.name.length ≤ 45)
    (hc : t.code_pointer.length ≤ 21) : cdmRow t = taskRow t := by
  unfold cdmRow taskRow
  rw [strTake_of_le t.name 45 hn, strTake_of_le t.code_pointer 21 hc,
    truncate_of_le t.name 45 hn, truncate_of_le t.code_pointer 21 hc]

theorem cdm_fold_eq (l : List Task)
    (hb : ∀ t ∈ l, t.status = DONE_MARKER →
      t.name.length ≤ 45 ∧ t.code_pointer.length ≤ 21) :
    ∀ acc : String,
      l.foldl (fun a t => if t.status = DONE_MARKER then a ++ cdmRow t else a) acc =
      l.foldl (fun a t => if t.status = DONE_MARKER then a ++ taskRow t else a) acc := by
  induction l with
  | nil => intro acc; rfl
  | cons t ts ih =>
    intro acc
    have ih2 := ih (fun u hu => hb u (by simp [hu]))
    by_cases hs : t.status = DONE_MARKER
    · obtain ⟨hn, hc⟩ := hb t (by simp) hs
      simp only [List.foldl_cons, if_pos hs, cdmRow_eq_taskRow t hn hc, ih2]
    · simp only [List.foldl_cons, if_neg hs, ih2]

/-- Claim C4, counterexample: on a store with a done task whose name is 46
characters long, the done text built by `create_done_message` (plain
slicing) differs from the done section produced by `write_txt` (ellipsis
truncation). -/
theorem c4_claim_false_at_long_name :
    cdmDoneContent c4CexStore ≠ (write_txt c4CexStore).done := by
  set_option maxRecDepth 8000 in decide

/-- Claim C4, amended: the done text `create_done_message` sends is
byte-identical to `write_txt`'s done section provided every done task's
name fits in 45 characters and its code pointer in 21, the display widths
(beyond the widths the two truncation styles disagree). -/
theorem c4_done_text_agrees_within_widths (data : Store)
    (hb : ∀ t ∈ data.tasks, t.status = DONE_MARKER →
      t.name.length ≤ 45 ∧ t.code_pointer.length ≤ 21) :
    cdmDoneContent data = (write_txt data).done := by
  show cdmDoneContent data = doneSection data
  unfold cdmDoneContent doneSection
  rw [cdm_fold_eq data.tasks hb]

theorem c4_done_text_agrees_within_widths_witness :
    cdmDoneContent { tasks := [{ id := 1, name := "Fix bug", code_pointer := "file.py:10", status := DONE_MARKER }], last_id := 1 }
      = (write_txt { tasks := [{ id := 1, name := "Fix bug", code_pointer := "file.py:10", status := DONE_MARKER }], last_id := 1 }).done :=
  c4_done_text_agrees_within_widths
    { tasks := [{ id := 1, name := "Fix bug", code_pointer := "file.py:10", status := DONE_MARKER }], last_id := 1 }
    (by decide)

/-- `sync_discord` only ever performs PATCH network calls: it never writes
the store document. -/
theorem sync_no_writeJson (cfg : DiscordConfig) (tc dc : String) (o : String → Nat)
    (d : Store) : Event.writeJson d ∉ (sync_discord cfg tc dc o).1 := by
  unfold sync_discord
  split_ifs <;> simp
  split_ifs <;> simp

/-- Claim C5: for a mutating command that succeeds, the invocation's side
effect trace starts with the persistence of the updated store, before any
remote call, and — whatever statuses the remote returns, in particular on
failing PATCHes — no further store write ever occurs, so a failed sync can
neither modify nor roll back the persisted store. -/
theorem c5_persist_before_sync (cfg : DiscordConfig) (s : Store) (op : Op)
    (o : String → Nat) (s2 : Store) (h : applyOp s op = (s2, none)) :
    ∃ rest, (mainMutating cfg s op o).1 = Event.writeJson s2 :: rest ∧
      ∀ d, Event.writeJson d ∉ rest := by
  unfold mainMutating
  rw [h]
  refine ⟨_, rfl, ?_⟩
  intro d
  simp only [List.mem_cons, not_or]
  exact ⟨by simp, sync_no_writeJson cfg _ _ o d⟩

theorem c5_persist_before_sync_witness :
    ∃ rest, (mainMutating c1Cfg initStore (Op.add "a" "b") (fun _ => 500)).1 =
      Event.writeJson (add_task initStore "a" "b").1 :: rest ∧
      ∀ d, Event.writeJson d ∉ rest :=
  c5_persist_before_sync c1Cfg initStore (Op.add "a" "b") (fun _ => 500)
    (add_task initStore "a" "b").1 rfl

/-- `editGo` rewrites exactly the first matching task, unconditionally
overwriting both editable fields. -/
theorem editGo_spec (ts : List Task) (tid : Int) (nm cp : String)
    (h : ∃ t ∈ ts, t.id = tid) :
    ∃ i, ∃ hi : i < ts.length, (ts.get ⟨i, hi⟩).id = tid ∧
      editGo ts tid nm cp =
        some (ts.set i { ts.get ⟨i, hi⟩ with name := nm, code_pointer := cp }) := by
  induction ts with
  | nil => simp at h
  | cons t ts ih =>
    by_cases ht : t.id = tid
    · exact ⟨0, by simp, ht, by simp [editGo, ht]⟩
    · have h2 : ∃ u ∈ ts, u.id = tid := by
        rcases h with ⟨u, hu, hid⟩
        rcases List.mem_cons.mp hu with rfl | hu2
        · exact absurd hid ht
        · exact ⟨u, hu2, hid⟩
      obtain ⟨i, hi, hid, heq⟩ := ih h2
      refine ⟨i + 1, by simpa using Nat.succ_lt_succ hi, by simpa using hid, ?_⟩
      simp only [editGo, if_neg ht, heq, Option.map_some', List.set_cons_succ]
      rfl

/-- Claim C10: with the `code_pointer` argument omitted at the command
surface, the parsed value is the literal `"..."`; `add` then stores `"..."`
as the new task's code pointer, and `edit` overwrites the matched task's
existing code pointer with `"..."` regardless of its previous value. -/
theorem c10_omitted_code_pointer (s : Store) (nm : String) (tid : Int) (nm2 : String) :
    ((add_task s nm (parsedCodePointer none)).1.tasks =
      s.tasks ++ [{ id := s.last_id + 1, name := nm, code_pointer := "...", status := "" }]) ∧
    ((∃ t ∈ s.tasks, t.id = tid) →
      ∃ i, ∃ hi : i < s.tasks.length, (s.tasks.get ⟨i, hi⟩).id = tid ∧
        (edit_task s tid nm2 (parsedCodePointer none)).1.tasks =
          s.tasks.set i { s.tasks.get ⟨i, hi⟩ with name := nm2, code_pointer := "..." }) := by
  refine ⟨rfl, fun h => ?_⟩
  obtain ⟨i, hi, hid, heq⟩ := editGo_spec s.tasks tid nm2 (parsedCodePointer none) h
  refine ⟨i, hi, hid, ?_⟩
  unfold edit_task
  rw [heq]
  rfl

theorem c10_omitted_code_pointer_witness :
    ((add_task { tasks := [{ id := 1, name := "a", code_pointer := "keep", status := "" }], last_id := 1 } "n" (parsedCodePointer none)).1.tasks =
      [{ id := 1, name := "a", code_pointer := "keep", status := "" }] ++
        [{ id := 2, name := "n", code_pointer := "...", status := "" }]) ∧
    ∃ i, ∃ hi : i < ([{ id := 1, name := "a", code_pointer := "keep", status := "" }] : List Task).length,
      (([{ id := 1, name := "a", code_pointer := "keep", status := "" }] : List Task).get ⟨i, hi⟩).id = 1 ∧
      (edit_task { tasks := [{ id := 1, name := "a", code_pointer := "keep", status := "" }], last_id := 1 } 1 "m" (parsedCodePointer none)).1.tasks =
        ([{ id := 1, name := "a", code_pointer := "keep", status := "" }] : List Task).set i
          { ([{ id := 1, name := "a", code_pointer := "keep", status := "" }] : List Task).get ⟨i, hi⟩ with name := "m", code_pointer := "..." } :=
  ⟨(c10_omitted_code_pointer { tasks := [{ id := 1, name := "a", code_pointer := "keep", status := "" }], last_id := 1 } "n" 1 "m").1,
   (c10_omitted_code_pointer { tasks := [{ id := 1, name := "a", code_pointer := "keep", status := "" }], last_id := 1 } "n" 1 "m").2
     ⟨{ id := 1, name := "a", code_pointer := "keep", status := "" }, by simp, rfl⟩⟩

end TodoManager
